import Mathlib

/-!
Verification development for the notes application
(`src/contexts/AppContext.tsx`, `src/utils/storage.ts`,
`src/components/SearchBar.tsx`, `src/types.ts`).

The TypeScript code is shallowly embedded:
* ISO timestamps (`new Date().toISOString()`, `Date.now()`) are modelled as
  natural numbers supplied to each function as an explicit clock argument.
* `localStorage` is modelled as an association list from key strings to
  stored values; a stored value is either a parsed JSON value (the picture
  of a string that `JSON.parse` accepts) or an unparseable blob of a given
  length (the picture of a corrupted string).
* JavaScript arrays are modelled as Lean lists; JS array comparison in the
  reducer is modelled structurally.
* JS `Array.prototype.sort` with a comparator is (per ES2019) a stable sort
  consistent with the comparator; any stable sort agrees with it, so it is
  modelled by a structurally recursive stable insertion sort.
-/

namespace NotesApp

/-! ## Data model (`src/types.ts`) -/

inductive Theme where
  | light | dark | system
deriving DecidableEq, Repr

inductive Density where
  | comfortable | compact
deriving DecidableEq, Repr

inductive TagFilterMode where
  | anyMode | allMode
deriving DecidableEq, Repr

inductive SortOption where
  | updatedAt | createdAt | title
deriving DecidableEq, Repr

inductive SortDirection where
  | asc | desc
deriving DecidableEq, Repr

/-- A note.  `deletedAt` mirrors the JS field `deletedAt?: string | null`:
`none` is an absent property (`undefined`), `some none` is `null`,
`some (some t)` is a timestamp string. -/
structure Note where
  id : String
  title : String
  body : String
  tagIds : List String
  pinned : Bool
  archived : Bool
  createdAt : Nat
  updatedAt : Nat
  deletedAt : Option (Option Nat)
deriving DecidableEq, Repr

structure Tag where
  id : String
  name : String
  color : Option String
  createdAt : Nat
  updatedAt : Nat
deriving DecidableEq, Repr

structure Preferences where
  theme : Theme
  density : Density
  tagFilterMode : TagFilterMode
deriving DecidableEq, Repr

structure FilterState where
  search : String
  tags : List String
  showArchived : Bool
  showPinned : Bool
  showUntagged : Bool
  sortBy : SortOption
  sortDirection : SortDirection
deriving DecidableEq, Repr

structure AppState where
  notes : List Note
  tags : List Tag
  preferences : Preferences
  filters : FilterState
  selectedNoteId : Option String
  isEditing : Bool
deriving DecidableEq, Repr

/-! ## Action payloads (`AppAction` in AppContext.tsx) -/

/-- Payload of `ADD_NOTE`: `Omit<Note, 'id' | 'createdAt' | 'updatedAt'>`. -/
structure AddNotePayload where
  title : String
  body : String
  tagIds : List String
  pinned : Bool
  archived : Bool
  deletedAt : Option (Option Nat)
deriving DecidableEq, Repr

/-- Payload of `UPDATE_NOTE`: `Partial<Note> & { id: string }`.  Each
optional field is `none` when the property is absent from the payload
object.  For `deletedAt`, a present property carries `null` (`none`) or a
timestamp (`some t`). -/
structure UpdateNotePayload where
  id : String
  title : Option String
  body : Option String
  tagIds : Option (List String)
  pinned : Option Bool
  archived : Option Bool
  createdAt : Option Nat
  updatedAt : Option Nat
  deletedAt : Option (Option Nat)
deriving DecidableEq, Repr

/-- Payload of `ADD_TAG`: `Omit<Tag, 'id' | 'createdAt' | 'updatedAt'>`. -/
structure AddTagPayload where
  name : String
  color : Option String
deriving DecidableEq, Repr

/-- Payload of `UPDATE_TAG`: `Partial<Tag> & { id: string }`. -/
structure UpdateTagPayload where
  id : String
  name : Option String
  color : Option String
  createdAt : Option Nat
  updatedAt : Option Nat
deriving DecidableEq, Repr

/-- Payload of `UPDATE_PREFERENCES`: `Partial<Preferences>`. -/
structure PreferencesPatch where
  theme : Option Theme
  density : Option Density
  tagFilterMode : Option TagFilterMode
deriving DecidableEq, Repr

/-- Payload of `UPDATE_FILTERS`: `Partial<FilterState>`. -/
structure FilterPatch where
  search : Option String
  tags : Option (List String)
  showArchived : Option Bool
  showPinned : Option Bool
  showUntagged : Option Bool
  sortBy : Option SortOption
  sortDirection : Option SortDirection
deriving DecidableEq, Repr

inductive AppAction where
  | addNote (p : AddNotePayload)
  | updateNote (p : UpdateNotePayload)
  | deleteNote (id : String)
  | restoreNote (id : String)
  | addTag (p : AddTagPayload)
  | updateTag (p : UpdateTagPayload)
  | deleteTag (id : String)
  | updatePreferences (p : PreferencesPatch)
  | updateFilters (p : FilterPatch)
  | selectNote (id : Option String)
  | setEditing (b : Bool)
  | importData (notes : List Note) (tags : List Tag) (preferences : Preferences)
deriving DecidableEq, Repr

def defaultPreferences : Preferences :=
  { theme := .system, density := .comfortable, tagFilterMode := .anyMode }

def defaultFilters : FilterState :=
  { search := "", tags := [], showArchived := false, showPinned := true,
    showUntagged := false, sortBy := .updatedAt, sortDirection := .desc }

def defaultState : AppState :=
  { notes := [], tags := [], preferences := defaultPreferences,
    filters := defaultFilters, selectedNoteId := none, isEditing := false }

/-! ## The reducer (`appReducer` in AppContext.tsx)

`new Date().toISOString()` is modelled by the explicit clock argument
`now`; the id produced by `generateUUID()` is the explicit argument
`freshId`. -/

/-- Modelled from the spec: `generateUUID` lives in `src/utils/uuid.ts`,
which is not among the provided sources.  Per the spec the identifier
generator "produces unique string identifiers for notes/tags"; it is
modelled by passing the generated id to the reducer as an explicit
argument, with freshness assumed where a theorem needs it. -/
abbrev GeneratedId := String

/-- `{...note, ...changes, updatedAt: now}` for `UPDATE_NOTE` (`id` was
destructured out of `changes`; a `updatedAt` entry of `changes` is
overwritten by `now`). -/
def applyChanges (p : UpdateNotePayload) (now : Nat) (n : Note) : Note :=
  { id := n.id
    title := p.title.getD n.title
    body := p.body.getD n.body
    tagIds := p.tagIds.getD n.tagIds
    pinned := p.pinned.getD n.pinned
    archived := p.archived.getD n.archived
    createdAt := p.createdAt.getD n.createdAt
    updatedAt := now
    deletedAt := match p.deletedAt with
      | some v => some v
      | none => n.deletedAt }

/-- `Object.entries(changes).some(([key, value]) => targetNote[key] !== value)`. -/
def hasChanges (p : UpdateNotePayload) (n : Note) : Bool :=
  (match p.title with | some v => v != n.title | none => false) ||
  (match p.body with | some v => v != n.body | none => false) ||
  (match p.tagIds with | some v => v != n.tagIds | none => false) ||
  (match p.pinned with | some v => v != n.pinned | none => false) ||
  (match p.archived with | some v => v != n.archived | none => false) ||
  (match p.createdAt with | some v => v != n.createdAt | none => false) ||
  (match p.updatedAt with | some v => v != n.updatedAt | none => false) ||
  (match p.deletedAt with | some v => some v != n.deletedAt | none => false)

def appReducer (now : Nat) (freshId : GeneratedId) (state : AppState)
    (action : AppAction) : AppState :=
  match action with
  | .addNote p =>
    let newNote : Note :=
      { id := freshId, createdAt := now, updatedAt := now,
        title := p.title, body := p.body, deletedAt := p.deletedAt,
        tagIds := p.tagIds, pinned := p.pinned, archived := p.archived }
    { state with
      notes := newNote :: state.notes
      selectedNoteId := some newNote.id
      isEditing := true }
  | .updateNote p =>
    match state.notes.find? (fun note => note.id == p.id) with
    | none => state
    | some targetNote =>
      if hasChanges p targetNote then
        { state with
          notes := state.notes.map (fun note =>
            if note.id == p.id then applyChanges p now note else note) }
      else state
  | .deleteNote id =>
    { state with
      notes := state.notes.map (fun note =>
        if note.id == id then { note with deletedAt := some (some now) } else note)
      selectedNoteId :=
        if state.selectedNoteId == some id then none else state.selectedNoteId }
  | .restoreNote id =>
    { state with
      notes := state.notes.map (fun note =>
        if note.id == id then { note with deletedAt := some none } else note) }
  | .addTag p =>
    let newTag : Tag :=
      { id := freshId, createdAt := now, updatedAt := now,
        name := p.name, color := p.color }
    { state with tags := state.tags ++ [newTag] }
  | .updateTag p =>
    { state with
      tags := state.tags.map (fun tag =>
        if tag.id == p.id then
          { id := tag.id
            name := p.name.getD tag.name
            color := match p.color with | some c => some c | none => tag.color
            createdAt := p.createdAt.getD tag.createdAt
            updatedAt := now }
        else tag) }
  | .deleteTag id =>
    { state with
      tags := state.tags.filter (fun tag => tag.id != id)
      notes := state.notes.map (fun note =>
        { note with tagIds := note.tagIds.filter (fun tagId => tagId != id) }) }
  | .updatePreferences p =>
    { state with
      preferences :=
        { theme := p.theme.getD state.preferences.theme
          density := p.density.getD state.preferences.density
          tagFilterMode := p.tagFilterMode.getD state.preferences.tagFilterMode } }
  | .updateFilters p =>
    { state with
      filters :=
        { search := p.search.getD state.filters.search
          tags := p.tags.getD state.filters.tags
          showArchived := p.showArchived.getD state.filters.showArchived
          showPinned := p.showPinned.getD state.filters.showPinned
          showUntagged := p.showUntagged.getD state.filters.showUntagged
          sortBy := p.sortBy.getD state.filters.sortBy
          sortDirection := p.sortDirection.getD state.filters.sortDirection } }
  | .selectNote id =>
    { state with selectedNoteId := id, isEditing := false }
  | .setEditing b =>
    { state with isEditing := b }
  | .importData notes tags preferences =>
    { state with notes := notes, tags := tags, preferences := preferences }

/-! ## Action traces (for the reducer invariants) -/

def applyTrace (s : AppState) : List (Nat × String × AppAction) → AppState
  | [] => s
  | (t, fid, a) :: tr => applyTrace (appReducer t fid s a) tr

/-- Side conditions of one trace step: the action is one of the four note
actions of the claim; an added note's generated id is fresh; an update
payload does not assign `createdAt`. -/
def okActionB (s : AppState) (fid : String) : AppAction → Bool
  | .addNote _ => !((s.notes.map Note.id).contains fid)
  | .updateNote p => p.createdAt.isNone
  | .deleteNote _ => true
  | .restoreNote _ => true
  | _ => false

/-- A well-formed trace: action times never decrease (the wall clock is
monotone) and every step satisfies `okActionB`. -/
def goodTraceB (c : Nat) (s : AppState) : List (Nat × String × AppAction) → Bool
  | [] => true
  | (t, fid, a) :: tr =>
    decide (c ≤ t) && okActionB s fid a && goodTraceB t (appReducer t fid s a) tr

/-! ## Selectors (`getFilteredNotes` in `useAppSelectors`) -/

/-- Stable insertion sort.  JS `Array.prototype.sort` with a consistent
comparator is required (ES2019) to be a stable sort; the stable sort of a
list under a total preorder is unique, so this models it. -/
def orderedInsert {α : Type} (le : α → α → Bool) (a : α) : List α → List α
  | [] => [a]
  | b :: l => if le a b then a :: b :: l else b :: orderedInsert le a l

def stableSort {α : Type} (le : α → α → Bool) : List α → List α
  | [] => []
  | a :: l => orderedInsert le a (stableSort le l)

/-- Lexicographic (code-unit) strict comparison of character lists. -/
def listLtB : List Char → List Char → Bool
  | [], [] => false
  | [], _ :: _ => true
  | _ :: _, [] => false
  | a :: as, b :: bs => if a == b then listLtB as bs else decide (a < b)

def strLtB (a b : String) : Bool :=
  listLtB a.toList b.toList

def strLeB (a b : String) : Bool :=
  !(strLtB b a)

/-- `a.localeCompare(b)`, modelled as code-unit lexicographic comparison. -/
def localeCompare (a b : String) : Int :=
  if strLtB a b then -1 else if strLtB b a then 1 else 0

/-- `new Date(note[sortBy]).getTime()` (only called with a date field). -/
def sortKeyDate (sb : SortOption) (n : Note) : Int :=
  match sb with
  | .createdAt => (n.createdAt : Int)
  | _ => (n.updatedAt : Int)

/-- The comparator passed to `filtered.sort` in `getFilteredNotes`. -/
def noteCmp (filters : FilterState) (a b : Note) : Int :=
  match filters.sortBy with
  | .title =>
    match filters.sortDirection with
    | .asc => localeCompare a.title b.title
    | .desc => localeCompare b.title a.title
  | _ =>
    let aDate := sortKeyDate filters.sortBy a
    let bDate := sortKeyDate filters.sortBy b
    match filters.sortDirection with
    | .asc => aDate - bDate
    | .desc => bDate - aDate

def noteLe (filters : FilterState) (a b : Note) : Bool :=
  decide (noteCmp filters a b ≤ 0)

/-- JS truthiness of the modelled `deletedAt` field (a non-empty timestamp
string is truthy; `undefined` and `null` are falsy). -/
def isDeletedB (n : Note) : Bool :=
  match n.deletedAt with
  | some (some _) => true
  | _ => false

/-- `filtered.filter((note) => !note.deletedAt)`. -/
def filterDeleted (notes : List Note) : List Note :=
  notes.filter (fun note => !isDeletedB note)

/-- `if (!filters.showArchived) filtered.filter((note) => !note.archived)`. -/
def filterArchived (filters : FilterState) (notes : List Note) : List Note :=
  if filters.showArchived then notes
  else notes.filter (fun note => !note.archived)

/-- The tag-filter predicate (`tagFilterMode === 'ANY'` branch uses `some`,
the `ALL` branch uses `every`). -/
def tagMatches (mode : TagFilterMode) (filterTags : List String) (note : Note) : Bool :=
  match mode with
  | .anyMode => note.tagIds.any (fun id => filterTags.contains id)
  | .allMode => filterTags.all (fun id => note.tagIds.contains id)

/-- `if (filters.tags.length > 0) ...`. -/
def filterTags (preferences : Preferences) (filters : FilterState)
    (notes : List Note) : List Note :=
  if 0 < filters.tags.length then
    notes.filter (tagMatches preferences.tagFilterMode filters.tags)
  else notes

/-- `if (filters.showUntagged) filtered.filter((note) => note.tagIds.length === 0)`. -/
def filterUntagged (filters : FilterState) (notes : List Note) : List Note :=
  if filters.showUntagged then notes.filter (fun note => note.tagIds.length == 0)
  else notes

def listIncludes (sub : List Char) : List Char → Bool
  | [] => sub.isEmpty
  | c :: rest => sub.isPrefixOf (c :: rest) || listIncludes sub rest

/-- `sub` occurs as a contiguous substring of `s` (JS `String.prototype.includes`). -/
def strIncludes (s sub : String) : Bool :=
  listIncludes sub.toList s.toList

/-- `if (filters.search) ...` case-insensitive substring match on title and body. -/
def filterSearch (filters : FilterState) (notes : List Note) : List Note :=
  if filters.search != "" then
    let search := filters.search.toLower
    notes.filter (fun note =>
      strIncludes note.title.toLower search || strIncludes note.body.toLower search)
  else notes

/-- The pipeline of `getFilteredNotes` up to and including the sort. -/
def preSorted (notes : List Note) (preferences : Preferences)
    (filters : FilterState) : List Note :=
  stableSort (noteLe filters)
    (filterSearch filters
      (filterUntagged filters
        (filterTags preferences filters
          (filterArchived filters
            (filterDeleted notes)))))

/-- `if (filters.showPinned) { pinned ++ unpinned }`. -/
def pinPartition (filters : FilterState) (notes : List Note) : List Note :=
  if filters.showPinned then
    notes.filter (fun note => note.pinned) ++
      notes.filter (fun note => !note.pinned)
  else notes

def getFilteredNotes (notes : List Note) (preferences : Preferences)
    (filters : FilterState) : List Note :=
  pinPartition filters (preSorted notes preferences filters)

/-! ## JSON values and the localStorage model

Stored strings are modelled by their parse outcome: a `StoredVal.jval v` is
a string that `JSON.parse` turns into `v` (serialize/parse round-trips are
the identity on parsed values), a `StoredVal.junk len` is an unparseable
string of length `len`. -/

inductive JValue where
  | jnull
  | jbool (b : Bool)
  | jnum (n : Int)
  | jstr (s : String)
  | jarr (xs : List JValue)
  | jobj (fields : List (String × JValue))

/-- JS truthiness of a JSON value (`undefined` is a missing `Option`). -/
def jsTruthy : JValue → Bool
  | .jnull => false
  | .jbool b => b
  | .jnum n => n != 0
  | .jstr s => s != ""
  | .jarr _ => true
  | .jobj _ => true

/-- `typeof v === 'object'` (true for objects, arrays and `null`). -/
def isObjType : JValue → Bool
  | .jnull => true
  | .jarr _ => true
  | .jobj _ => true
  | _ => false

/-- Property access `v.key` (`none` is `undefined`). -/
def jfield (v : JValue) (key : String) : Option JValue :=
  match v with
  | .jobj fields => (fields.find? (fun f => f.1 == key)).map (fun f => f.2)
  | _ => none

def isStrF : Option JValue → Bool
  | some (.jstr _) => true
  | _ => false

def isArrF : Option JValue → Bool
  | some (.jarr _) => true
  | _ => false

def isBoolF : Option JValue → Bool
  | some (.jbool _) => true
  | _ => false

def escapeChar (c : Char) : String :=
  if c = '"' then "\\\"" else if c = '\\' then "\\\\" else String.singleton c

def escapeJson (s : String) : String :=
  String.join (s.toList.map escapeChar)

/-- `JSON.stringify` without indentation (used by the source only for the
serialized string's length and content equality). -/
def stringify : JValue → String
  | .jnull => "null"
  | .jbool b => cond b "true" "false"
  | .jnum n => toString n
  | .jstr s => "\"" ++ escapeJson s ++ "\""
  | .jarr xs =>
    "[" ++ String.intercalate "," (xs.attach.map (fun x => stringify x.1)) ++ "]"
  | .jobj fields =>
    "\x7b" ++ String.intercalate ","
      (fields.attach.map (fun f =>
        "\"" ++ escapeJson f.1.1 ++ "\":" ++ stringify f.1.2)) ++ "\x7d"
decreasing_by
  · have h := List.sizeOf_lt_of_mem x.2
    simp only [JValue.jarr.sizeOf_spec]
    omega
  · have h1 := List.sizeOf_lt_of_mem f.2
    have h2 : sizeOf f.1.2 < sizeOf f.1 := by
      rcases hp : f.1 with ⟨a, b⟩
      simp [hp]
    simp only [JValue.jobj.sizeOf_spec]
    omega

inductive StoredVal where
  | junk (len : Nat)
  | jval (v : JValue)

/-- The browser `localStorage`: an association list with unique keys;
`storePut` on a fresh key appends (JS key insertion order). -/
abbrev Store := List (String × StoredVal)

def storeLookup (st : Store) (k : String) : Option StoredVal :=
  (st.find? (fun e => e.1 == k)).map (fun e => e.2)

def storePut : Store → String → StoredVal → Store
  | [], k, v => [(k, v)]
  | e :: rest, k, v => if e.1 == k then (k, v) :: rest else e :: storePut rest k v

def storeRemove (st : Store) (k : String) : Store :=
  st.filter (fun e => e.1 != k)

def storeKeys (st : Store) : List String :=
  st.map (fun e => e.1)

/-- Length of the stored string (for `getItem(key)?.length`). -/
def storedLen : StoredVal → Nat
  | .junk len => len
  | .jval v => (stringify v).length

/-- Truthiness of the stored string (non-empty strings are truthy). -/
def storedStrTruthy : StoredVal → Bool
  | .junk len => len != 0
  | .jval _ => true

/-- `p` is a prefix of `s` (JS `String.prototype.startsWith`). -/
def strStartsWith (s p : String) : Bool :=
  p.toList.isPrefixOf s.toList

/-- JS `keys.sort().reverse()` (default sort on strings is code-unit
lexicographic). -/
def sortedDesc (ks : List String) : List String :=
  (stableSort strLeB ks).reverse

/-! ## AppContext.tsx persistence layer (`STORAGE_KEYS`, backup, recovery) -/

def NOTES_KEY : String := "notes-app-data"
def TAGS_KEY : String := "notes-app-tags"
def PREFS_KEY : String := "notes-app-prefs"
def backupKeyStart : String := "notes-backup-"
def META_KEY : String := "notes-metadata"

def STORAGE_TOTAL : Nat := 5 * 1024 * 1024

def storageUsed (st : Store) : Nat :=
  (st.map (fun e => storedLen e.2)).sum

/-- `Math.round((used / total) * 100)` (round half up, as `Math.round`). -/
def storagePct (st : Store) : Nat :=
  (storageUsed st * 100 + STORAGE_TOTAL / 2) / STORAGE_TOTAL

/-- `localStorage.setItem` with the quota oracle `q`: `none` models a
thrown `QuotaExceededError` for that key. -/
def rawSet (q : String → Bool) (k : String) (v : StoredVal) (st : Store) :
    Option Store :=
  if q k then none else some (storePut st k v)

/-- `createBackup`: write a timestamped snapshot, then prune to the three
most recent backups of this key; any throw is caught and ignored.  The
returned list holds the keys written. -/
def createBackup (key : String) (data : JValue) (now : Nat)
    (q : String → Bool) (st : Store) : Store × List String :=
  let backupKey := backupKeyStart ++ key ++ "-" ++ toString now
  match rawSet q backupKey
      (.jval (.jobj [("timestamp", .jstr (toString now)), ("data", data),
                     ("originalKey", .jstr key)])) st with
  | none => (st, [])
  | some st1 =>
    let backupKeys := sortedDesc ((storeKeys st1).filter
      (fun k2 => strStartsWith k2 (backupKeyStart ++ key ++ "-")))
    ((backupKeys.drop 3).foldl (fun acc k2 => storeRemove acc k2) st1, [backupKey])

structure SaveOut where
  store : Store
  written : List String
  ok : Bool

/-- `handleQuotaExceeded`: drop legacy versioned keys, prune backups to the
newest one per base key (`sort().reverse().slice(1)` removed, i.e. all but
the lexicographic maximum of each group), then retry the write once. -/
def handleQuotaExceeded (key : String) (data : JValue) (q : String → Bool)
    (st : Store) : SaveOut :=
  let oldKeys : List String := ["app.notes.v1", "app.tags.v1", "app.preferences.v1"]
  let st1 := oldKeys.foldl (fun acc k2 =>
    match storeLookup acc k2 with
    | some v => if storedStrTruthy v then storeRemove acc k2 else acc
    | none => acc) st
  let backupKeys := (storeKeys st1).filter (fun k2 => strStartsWith k2 backupKeyStart)
  let baseOf := fun (k2 : String) =>
    String.intercalate "-" ((k2.splitOn "-").dropLast)
  let st2 := backupKeys.foldl (fun acc k2 =>
    if (backupKeys.filter (fun k3 => baseOf k3 == baseOf k2)).all
        (fun k3 => strLeB k3 k2) then acc
    else storeRemove acc k2) st1
  match rawSet q key (.jval data) st2 with
  | some st3 => ⟨st3, [key], true⟩
  | none => ⟨st2, [], false⟩

/-- `saveToLocalStorage`: usage check (pruning all backups above 90%),
backup-before-overwrite for notes/tags, the write itself, and the metadata
update; a quota throw anywhere in the `try` lands in `handleQuotaExceeded`. -/
def saveToLocalStorage (key : String) (data : JValue) (now : Nat)
    (q : String → Bool) (st : Store) : SaveOut :=
  let serialized := stringify data
  let usage := storagePct st
  let st1 :=
    if 80 < usage then
      if 90 < usage then
        ((storeKeys st).filter (fun k2 => strStartsWith k2 backupKeyStart)).foldl
          (fun acc k2 => storeRemove acc k2) st
      else st
    else st
  let bk :=
    if key == NOTES_KEY || key == TAGS_KEY then createBackup key data now q st1
    else (st1, [])
  match rawSet q key (.jval data) bk.1 with
  | none =>
    let h := handleQuotaExceeded key data q bk.1
    ⟨h.store, bk.2 ++ h.written, h.ok⟩
  | some st2 =>
    let metadata : JValue :=
      .jobj [("lastSaved", .jstr (toString now)), ("version", .jstr "1.0.0"),
             ("dataSize", .jnum (Int.ofNat serialized.length))]
    match rawSet q META_KEY (.jval metadata) st2 with
    | none =>
      let h := handleQuotaExceeded key data q st2
      ⟨h.store, bk.2 ++ [key] ++ h.written, h.ok⟩
    | some st3 => ⟨st3, bk.2 ++ [key, META_KEY], true⟩

/-- `validateData` of AppContext.tsx (per-key structural checks). -/
def validateData (data : JValue) (key : String) : Bool :=
  if key == NOTES_KEY then
    match data with
    | .jarr xs => xs.all (fun note =>
        jsTruthy note &&
        isStrF (jfield note "id") &&
        isStrF (jfield note "title") &&
        isStrF (jfield note "body") &&
        isArrF (jfield note "tagIds") &&
        isStrF (jfield note "createdAt") &&
        isStrF (jfield note "updatedAt"))
    | _ => false
  else if key == TAGS_KEY then
    match data with
    | .jarr xs => xs.all (fun tag =>
        jsTruthy tag &&
        isStrF (jfield tag "id") &&
        isStrF (jfield tag "name") &&
        isStrF (jfield tag "createdAt") &&
        isStrF (jfield tag "updatedAt"))
    | _ => false
  else if key == PREFS_KEY then
    jsTruthy data && isObjType data &&
    isStrF (jfield data "theme") &&
    isStrF (jfield data "density") &&
    isStrF (jfield data "tagFilterMode")
  else true

def replaceFirstAux (pat repl : String) : List Char → String
  | [] => ""
  | c :: rest =>
    if pat.toList.isPrefixOf (c :: rest) then
      repl ++ String.mk (List.drop pat.length (c :: rest))
    else String.singleton c ++ replaceFirstAux pat repl rest

/-- JS `s.replace(pat, repl)` with a string pattern: replaces only the
first occurrence. -/
def replaceFirst (s pat repl : String) : String :=
  if pat == "" then repl ++ s else replaceFirstAux pat repl s.toList

/-- The backup-scanning loop inside `attemptDataRecovery`: each backup is
read and parsed (`JSON.parse(getItem(k) || '')`, throws caught by the inner
`try`), and the first whose `data` field is truthy and validates is adopted
and re-persisted via `saveToLocalStorage`. -/
def recoveryLoop (key : String) (defaultValue : JValue) (now : Nat)
    (q : String → Bool) (st : Store) : List String → Store × JValue
  | [] => (st, defaultValue)
  | bk :: rest =>
    match storeLookup st bk with
    | some (.jval backup) =>
      match jfield backup "data" with
      | some d =>
        if jsTruthy d && validateData d key then
          let so := saveToLocalStorage key d now q st
          (so.store, d)
        else recoveryLoop key defaultValue now q st rest
      | none => recoveryLoop key defaultValue now q st rest
    | _ => recoveryLoop key defaultValue now q st rest

/-- `attemptDataRecovery`: scan the backups whose key starts with
`'notes-backup-' + key.replace('notes-app-', '') + '-'`, newest first. -/
def attemptDataRecovery (key : String) (defaultValue : JValue) (now : Nat)
    (q : String → Bool) (st : Store) : Store × JValue :=
  let pfx := backupKeyStart ++ replaceFirst key "notes-app-" "" ++ "-"
  let backupKeys := sortedDesc ((storeKeys st).filter (fun k2 => strStartsWith k2 pfx))
  recoveryLoop key defaultValue now q st backupKeys

/-- `loadFromLocalStorage` (localStorage is modelled as available): missing
or empty item yields the default; an unparseable or invalid item goes
through `attemptDataRecovery`. -/
def loadFromLocalStorage (key : String) (defaultValue : JValue) (now : Nat)
    (q : String → Bool) (st : Store) : Store × JValue :=
  match storeLookup st key with
  | none => (st, defaultValue)
  | some (.junk 0) => (st, defaultValue)
  | some (.junk _) => attemptDataRecovery key defaultValue now q st
  | some (.jval v) =>
    if validateData v key then (st, v)
    else attemptDataRecovery key defaultValue now q st

/-! ## storage.ts (`LocalStorageAdapter`, validators, export/import) -/

inductive StorageErrorType where
  | quota_exceeded
  | parse_error
  | write_error
deriving DecidableEq, Repr

def NOTES_V1 : String := "app.notes.v1"
def TAGS_V1 : String := "app.tags.v1"
def PREFS_V1 : String := "app.preferences.v1"
def META_V1 : String := "app.meta.v1"

/-- `LocalStorageAdapter.getItem`: a falsy (missing or empty) item is
`null`; an unparseable item throws a `parse_error`. -/
def getItemSt (st : Store) (k : String) : Except StorageErrorType (Option JValue) :=
  match storeLookup st k with
  | none => .ok none
  | some (.junk 0) => .ok none
  | some (.junk _) => .error .parse_error
  | some (.jval v) => .ok (some v)

/-- `LocalStorageAdapter.setItem` with the quota oracle `q`. -/
def setItemSt (q : String → Bool) (k : String) (v : JValue) (st : Store) :
    Except StorageErrorType Store :=
  if q k then .error .quota_exceeded else .ok (storePut st k (.jval v))

def isValidNote (note : JValue) : Bool :=
  jsTruthy note && isObjType note &&
  isStrF (jfield note "id") &&
  isStrF (jfield note "title") &&
  isStrF (jfield note "body") &&
  isArrF (jfield note "tagIds") &&
  isBoolF (jfield note "pinned") &&
  isBoolF (jfield note "archived") &&
  isStrF (jfield note "createdAt") &&
  isStrF (jfield note "updatedAt")

def isValidTag (tag : JValue) : Bool :=
  jsTruthy tag && isObjType tag &&
  isStrF (jfield tag "id") &&
  isStrF (jfield tag "name") &&
  isStrF (jfield tag "createdAt") &&
  isStrF (jfield tag "updatedAt") &&
  (match jfield tag "color" with
   | none => true
   | some (.jstr _) => true
   | _ => false)

def isValidPreferences (prefs : JValue) : Bool :=
  jsTruthy prefs && isObjType prefs &&
  (match jfield prefs "theme" with
   | some (.jstr s) => ["light", "dark", "system"].contains s
   | _ => false) &&
  (match jfield prefs "density" with
   | some (.jstr s) => ["comfortable", "compact"].contains s
   | _ => false) &&
  (match jfield prefs "tagFilterMode" with
   | some (.jstr s) => ["ANY", "ALL"].contains s
   | _ => false)

def isValidAppData (data : JValue) : Bool :=
  jsTruthy data && isObjType data &&
  (match jfield data "version" with
   | some (.jnum _) => true
   | _ => false) &&
  (match jfield data "notes" with
   | some (.jarr ns) => ns.all isValidNote
   | _ => false) &&
  (match jfield data "tags" with
   | some (.jarr ts) => ts.all isValidTag
   | _ => false) &&
  isValidPreferences ((jfield data "preferences").getD .jnull)

/-- `exportData`: assemble the envelope from storage (with defaults) and
validate it.  The model returns the envelope as a parsed value; the
source's `JSON.stringify(data, null, 2)` / `JSON.parse` round-trip is the
identity on it. -/
def exportData (st : Store) : Except StorageErrorType JValue :=
  match getItemSt st NOTES_V1 with
  | .error e => .error e
  | .ok notesOpt =>
    match getItemSt st TAGS_V1 with
    | .error e => .error e
    | .ok tagsOpt =>
      match getItemSt st PREFS_V1 with
      | .error e => .error e
      | .ok prefsOpt =>
        let notes := notesOpt.getD (.jarr [])
        let tags := tagsOpt.getD (.jarr [])
        let preferences := prefsOpt.getD
          (.jobj [("theme", .jstr "system"), ("density", .jstr "comfortable"),
                  ("tagFilterMode", .jstr "ANY")])
        let data : JValue :=
          .jobj [("version", .jnum 1), ("notes", notes), ("tags", tags),
                 ("preferences", preferences)]
        if isValidAppData data then .ok data else .error .parse_error

/-- `importData` of storage.ts.  The argument is the outcome of
`JSON.parse(json)` (`none` when parsing throws).  Every failure is caught
and rethrown as a `parse_error`; the returned store is the one reached
when the failure occurred. -/
def importData (parsed : Option JValue) (now : Nat) (q : String → Bool)
    (st : Store) : Store × Except StorageErrorType Bool :=
  match parsed with
  | none => (st, .error .parse_error)
  | some data =>
    if isValidAppData data then
      match jfield data "version" with
      | some (.jnum v) =>
        if v == 1 then
          match setItemSt q NOTES_V1 ((jfield data "notes").getD .jnull) st with
          | .error _ => (st, .error .parse_error)
          | .ok st1 =>
            match setItemSt q TAGS_V1 ((jfield data "tags").getD .jnull) st1 with
            | .error _ => (st1, .error .parse_error)
            | .ok st2 =>
              match setItemSt q PREFS_V1 ((jfield data "preferences").getD .jnull) st2 with
              | .error _ => (st2, .error .parse_error)
              | .ok st3 =>
                match setItemSt q META_V1
                    (.jobj [("lastBackupAt", .jstr (toString now))]) st3 with
                | .error _ => (st3, .error .parse_error)
                | .ok st4 => (st4, .ok true)
        else (st, .error .parse_error)
      | _ => (st, .error .parse_error)
    else (st, .error .parse_error)

/-! ## useLocalStorage hook (SearchBar.tsx) and the debounce machinery -/

/-- One `setValue` call of the `useLocalStorage` hook: when `skipEqual`
holds and the serialized values agree, the previous state is returned and
no save is scheduled; otherwise the new value is adopted and a debounced
save is scheduled (the returned flag). -/
def setValueStep {α : Type} (skipEq : Bool) (serialize : α → String)
    (prevState newValue : α) : α × Bool :=
  if skipEq && serialize prevState == serialize newValue then (prevState, false)
  else (newValue, true)

/-- `debouncedSave` of AppContext.tsx: cancel any pending timer and
schedule a save of the latest value. -/
def debouncedSave (key : String) (data : JValue)
    (_pending : Option (String × JValue)) : Option (String × JValue) :=
  some (key, data)

/-- The debounce timer firing: run `saveToLocalStorage` on the pending
key/value, if any. -/
def fireDebounceTimer (pending : Option (String × JValue)) (now : Nat)
    (q : String → Bool) (st : Store) : SaveOut :=
  match pending with
  | some (k, d) => saveToLocalStorage k d now q st
  | none => ⟨st, [], true⟩

def neverFail : String → Bool := fun _ => false

/-- The payload of an `UPDATE_NOTE` carries, for every property it has, a
value equal to the target note's current value (the hypothesis of the
no-op claim). -/
def agreesB (p : UpdateNotePayload) (n : Note) : Bool :=
  p.title.all (fun v => v == n.title) &&
  p.body.all (fun v => v == n.body) &&
  p.tagIds.all (fun v => v == n.tagIds) &&
  p.pinned.all (fun v => v == n.pinned) &&
  p.archived.all (fun v => v == n.archived) &&
  p.createdAt.all (fun v => v == n.createdAt) &&
  p.updatedAt.all (fun v => v == n.updatedAt) &&
  p.deletedAt.all (fun v => some v == n.deletedAt)

/-! ## Concrete fixtures used by witnesses and counterexamples -/

def w5note : Note := ⟨"a", "t", "b", ["x"], true, false, 0, 1, some none⟩

def w5state : AppState := { defaultState with notes := [w5note] }

def w5payload : UpdateNotePayload :=
  ⟨"a", some "t", some "b", some ["x"], some true, some false, none, some 1, some none⟩

def w10state : AppState :=
  { defaultState with notes := [⟨"a", "t", "b", [], false, false, 0, 1, none⟩] }

def w10payload : UpdateNotePayload :=
  ⟨"zzz", some "other", none, none, none, none, none, none, none⟩

def cexState : AppState :=
  { defaultState with notes := [⟨"n", "t", "b", [], false, false, 0, 0, none⟩] }

/-- An `UPDATE_NOTE` payload that assigns `createdAt` (a property the
`Partial<Note>` payload type admits). -/
def cexPayload : UpdateNotePayload :=
  ⟨"n", none, none, none, none, none, some 10, none, none⟩

def cexTrace : List (Nat × String × AppAction) :=
  [(5, "f", .updateNote cexPayload)]

def w2state : AppState :=
  { defaultState with notes := [⟨"n", "t", "b", [], false, false, 1, 2, none⟩] }

def w2trace : List (Nat × String × AppAction) :=
  [(3, "m", .addNote ⟨"t2", "b2", ["x"], false, false, none⟩),
   (4, "q", .updateNote ⟨"n", some "t3", none, none, none, none, none, none, none⟩),
   (5, "r", .deleteNote "n"),
   (6, "s2", .restoreNote "n")]

def nA : Note := ⟨"A", "a", "", ["x"], false, false, 0, 3, none⟩

def nB : Note := ⟨"B", "b", "", ["y"], false, false, 0, 2, none⟩

def nC : Note := ⟨"C", "c", "", ["x", "y"], false, false, 0, 1, none⟩

def fAny : FilterState := { defaultFilters with tags := ["x"] }

def pAll : Preferences := { defaultPreferences with tagFilterMode := .allMode }

def fAll : FilterState := { defaultFilters with tags := ["x", "y"] }

def t1 : Note := ⟨"T1", "b", "", [], false, false, 0, 1, none⟩

def t2 : Note := ⟨"T2", "a", "", [], false, false, 0, 2, none⟩

def t3 : Note := ⟨"T3", "c", "", [], false, false, 0, 3, none⟩

def fTitle : FilterState :=
  { defaultFilters with sortBy := .title, sortDirection := .asc }


/-- The source's `data.version !== 1` check on the parsed payload. -/
def versionIs1 (v : JValue) : Bool :=
  match jfield v "version" with
  | some (.jnum k) => k == 1
  | _ => false

def prefsJ : JValue :=
  .jobj [("theme", .jstr "system"), ("density", .jstr "comfortable"),
         ("tagFilterMode", .jstr "ANY")]

def v1payload : JValue :=
  .jobj [("version", .jnum 1), ("notes", .jarr []), ("tags", .jarr []),
         ("preferences", prefsJ)]

def v2payload : JValue :=
  .jobj [("version", .jnum 2), ("notes", .jarr []), ("tags", .jarr []),
         ("preferences", prefsJ)]

/-- A quota oracle on which only the tags key write fails. -/
def qTags : String → Bool := fun k => k == "app.tags.v1"

def goodNoteJ : JValue :=
  .jobj [("id", .jstr "n1"), ("title", .jstr "t"), ("body", .jstr "b"),
         ("tagIds", .jarr []), ("createdAt", .jstr "c"), ("updatedAt", .jstr "u")]

/-- A backup entry exactly as `createBackup` writes it for the notes key. -/
def backupVal : JValue :=
  .jobj [("timestamp", .jstr "100"), ("data", .jarr [goodNoteJ]),
         ("originalKey", .jstr "notes-app-data")]

/-- Corrupted primary notes key next to a valid `createBackup` snapshot. -/
def st4 : Store :=
  [("notes-app-data", .junk 7),
   ("notes-backup-notes-app-data-100", .jval backupVal)]

/-- A store already holding exactly the value about to be saved. -/
def st9 : Store := [("notes-app-data", .jval (.jarr []))]

def noteJ1 : JValue :=
  .jobj [("id", .jstr "n1"), ("title", .jstr "t"), ("body", .jstr "b"),
         ("tagIds", .jarr []), ("pinned", .jbool false), ("archived", .jbool false),
         ("createdAt", .jstr "c"), ("updatedAt", .jstr "u")]

def tagJ1 : JValue :=
  .jobj [("id", .jstr "g1"), ("name", .jstr "work"),
         ("createdAt", .jstr "c"), ("updatedAt", .jstr "u")]

def st6 : Store :=
  [("app.notes.v1", .jval (.jarr [noteJ1])),
   ("app.tags.v1", .jval (.jarr [tagJ1])),
   ("app.preferences.v1", .jval prefsJ)]

/-!
# Theorems

First a small toolkit of list lemmas, then one theorem per claim (with a
closed witness or counterexample where required).
-/

theorem all_filter_self {α : Type} (p : α → Bool) (l : List α) :
    (l.filter p).all p = true := by
  rw [List.all_eq_true]
  intro a ha
  exact (List.mem_filter.mp ha).2

theorem contains_filter_bne (l : List String) (a : String) :
    (l.filter (fun x => x != a)).contains a = false := by
  cases hc : (l.filter (fun x => x != a)).contains a
  · rfl
  · exfalso
    have hm : a ∈ l.filter (fun x => x != a) := List.elem_iff.mp hc
    have := (List.mem_filter.mp hm).2
    simp at this

theorem hasChanges_false_of_agrees (p : UpdateNotePayload) (n : Note)
    (h : agreesB p n = true) : hasChanges p n = false := by
  rcases p with ⟨pid, t, b, tg, pi, ar, ca, ua, da⟩
  unfold agreesB at h
  unfold hasChanges
  cases t <;> cases b <;> cases tg <;> cases pi <;> cases ar <;>
    cases ca <;> cases ua <;> cases da <;> simp_all

theorem map_id_of_id_preserving (f : Note → Note) (l : List Note)
    (hid : ∀ n, (f n).id = n.id) :
    (l.map f).map Note.id = l.map Note.id := by
  rw [List.map_map]
  exact List.map_congr_left (fun n _ => hid n)

/-- One reducer step of the four note actions preserves id-distinctness,
`createdAt ≤ updatedAt`, and the clock bound. -/
theorem step_preserves (t c : Nat) (fid : String) (a : AppAction) (s : AppState)
    (hnd : (s.notes.map Note.id).Nodup)
    (hcu : ∀ n ∈ s.notes, n.createdAt ≤ n.updatedAt ∧ n.createdAt ≤ c ∧ n.updatedAt ≤ c)
    (hct : c ≤ t) (hok : okActionB s fid a = true) :
    ((appReducer t fid s a).notes.map Note.id).Nodup ∧
    ∀ n ∈ (appReducer t fid s a).notes,
      n.createdAt ≤ n.updatedAt ∧ n.createdAt ≤ t ∧ n.updatedAt ≤ t := by
  have hmono : ∀ n ∈ s.notes,
      n.createdAt ≤ n.updatedAt ∧ n.createdAt ≤ t ∧ n.updatedAt ≤ t :=
    fun n hn => ⟨(hcu n hn).1, le_trans (hcu n hn).2.1 hct, le_trans (hcu n hn).2.2 hct⟩
  cases a with
  | addNote p =>
    simp only [okActionB, Bool.not_eq_true'] at hok
    have hfid : fid ∉ s.notes.map Note.id := by
      intro hm
      have hc : (s.notes.map Note.id).contains fid = true := List.elem_iff.mpr hm
      rw [hok] at hc
      exact Bool.false_ne_true hc
    constructor
    · show (fid :: s.notes.map Note.id).Nodup
      exact List.nodup_cons.mpr ⟨hfid, hnd⟩
    · intro n hn
      rcases List.mem_cons.mp hn with rfl | hn'
      · exact ⟨le_refl t, le_refl t, le_refl t⟩
      · exact hmono n hn'
  | updateNote p =>
    simp only [okActionB, Option.isNone_iff_eq_none] at hok
    cases hf : s.notes.find? (fun note => note.id == p.id) with
    | none => simp only [appReducer, hf]; exact ⟨hnd, hmono⟩
    | some target =>
      cases hch : hasChanges p target with
      | false => simp only [appReducer, hf, hch]; exact ⟨hnd, hmono⟩
      | true =>
        simp only [appReducer, hf, hch, if_true]
        have hid : ∀ n : Note,
            ((fun note => if note.id == p.id then applyChanges p t note else note) n).id
              = n.id := by
          intro n
          by_cases h : (n.id == p.id) = true <;> simp [h, applyChanges]
        refine ⟨?_, ?_⟩
        · rw [map_id_of_id_preserving _ _ hid]
          exact hnd
        · intro n hn
          obtain ⟨m, hm, rfl⟩ := List.mem_map.mp hn
          by_cases h : (m.id == p.id) = true
          · simp only [h, if_true, applyChanges, hok, Option.getD_none]
            exact ⟨le_trans (hcu m hm).2.1 hct, le_trans (hcu m hm).2.1 hct, le_refl t⟩
          · simpa [h] using hmono m hm
  | deleteNote id =>
    have hid : ∀ n : Note,
        ((fun note => if note.id == id then { note with deletedAt := some (some t) }
          else note) n).id = n.id := by
      intro n
      by_cases h : (n.id == id) = true <;> simp [h]
    refine ⟨?_, ?_⟩
    · show (((s.notes.map (fun note => if note.id == id
        then { note with deletedAt := some (some t) } else note)).map Note.id)).Nodup
      rw [map_id_of_id_preserving _ _ hid]
      exact hnd
    · intro n hn
      obtain ⟨m, hm, rfl⟩ := List.mem_map.mp hn
      by_cases h : (m.id == id) = true <;> simpa [h] using hmono m hm
  | restoreNote id =>
    have hid : ∀ n : Note,
        ((fun note => if note.id == id then { note with deletedAt := some none }
          else note) n).id = n.id := by
      intro n
      by_cases h : (n.id == id) = true <;> simp [h]
    refine ⟨?_, ?_⟩
    · show (((s.notes.map (fun note => if note.id == id
        then { note with deletedAt := some none } else note)).map Note.id)).Nodup
      rw [map_id_of_id_preserving _ _ hid]
      exact hnd
    · intro n hn
      obtain ⟨m, hm, rfl⟩ := List.mem_map.mp hn
      by_cases h : (m.id == id) = true <;> simpa [h] using hmono m hm
  | addTag p => simp [okActionB] at hok
  | updateTag p => simp [okActionB] at hok
  | deleteTag id => simp [okActionB] at hok
  | updatePreferences p => simp [okActionB] at hok
  | updateFilters p => simp [okActionB] at hok
  | selectNote id => simp [okActionB] at hok
  | setEditing b => simp [okActionB] at hok
  | importData notes tags preferences => simp [okActionB] at hok

/-- C2 (amended): along any trace of AddNote/UpdateNote/DeleteNote/RestoreNote
actions whose clock is monotone and bounds the initial timestamps, whose
generated ids are fresh, and whose update payloads do not assign
`createdAt`, note ids stay pairwise distinct and `updatedAt ≥ createdAt`
holds for every note. -/
theorem noteInvariants_preserved (tr : List (Nat × String × AppAction))
    (c : Nat) (s : AppState)
    (hnd : (s.notes.map Note.id).Nodup)
    (hcu : ∀ n ∈ s.notes, n.createdAt ≤ n.updatedAt)
    (hb : ∀ n ∈ s.notes, n.createdAt ≤ c ∧ n.updatedAt ≤ c)
    (htr : goodTraceB c s tr = true) :
    ((applyTrace s tr).notes.map Note.id).Nodup ∧
    ∀ n ∈ (applyTrace s tr).notes, n.createdAt ≤ n.updatedAt := by
  induction tr generalizing c s with
  | nil => exact ⟨hnd, hcu⟩
  | cons step rest ih =>
    obtain ⟨t, fid, a⟩ := step
    simp only [goodTraceB, Bool.and_eq_true, decide_eq_true_eq] at htr
    obtain ⟨⟨hct, hok⟩, htr'⟩ := htr
    have hstep := step_preserves t c fid a s hnd
      (fun n hn => ⟨hcu n hn, (hb n hn).1, (hb n hn).2⟩) hct hok
    simp only [applyTrace]
    exact ih t (appReducer t fid s a) hstep.1
      (fun n hn => (hstep.2 n hn).1)
      (fun n hn => ⟨(hstep.2 n hn).2.1, (hstep.2 n hn).2.2⟩) htr'

/-- C2 counterexample: from a state satisfying both invariants, a single
`UPDATE_NOTE` whose `Partial<Note>` payload assigns `createdAt := 10`,
dispatched at clock 5, yields a note with `createdAt = 10 > updatedAt = 5`. -/
theorem noteInvariants_cex :
    ((cexState.notes.map Note.id).Nodup ∧
      ∀ n ∈ cexState.notes, n.createdAt ≤ n.updatedAt) ∧
    ¬ (∀ n ∈ (applyTrace cexState cexTrace).notes, n.createdAt ≤ n.updatedAt) := by
  decide

/-- Witness for C2 (amended) at a concrete state and trace. -/
theorem noteInvariants_preserved_witness :
    (w2state.notes.map Note.id).Nodup ∧
    (∀ n ∈ w2state.notes, n.createdAt ≤ n.updatedAt) ∧
    (∀ n ∈ w2state.notes, n.createdAt ≤ 2 ∧ n.updatedAt ≤ 2) ∧
    goodTraceB 2 w2state w2trace = true ∧
    (((applyTrace w2state w2trace).notes.map Note.id).Nodup ∧
      ∀ n ∈ (applyTrace w2state w2trace).notes, n.createdAt ≤ n.updatedAt) :=
  ⟨by decide, by decide, by decide, by decide,
    noteInvariants_preserved w2trace 2 w2state (by decide) (by decide)
      (by decide) (by decide)⟩

/-- C1: dispatching `DELETE_TAG` produces, in the single reducer
transition, a state whose tag collection has no tag with the deleted id
and in which no note's `tagIds` contains that id. -/
theorem deleteTag_atomic_cascade (now : Nat) (fid : GeneratedId)
    (s : AppState) (tid : String) :
    ((appReducer now fid s (.deleteTag tid)).tags.all
      (fun t => t.id != tid)) = true ∧
    ((appReducer now fid s (.deleteTag tid)).notes.all
      (fun n => !(n.tagIds.contains tid))) = true := by
  refine ⟨?_, ?_⟩
  · exact all_filter_self _ _
  · show ((s.notes.map (fun note : Note =>
      { note with tagIds := note.tagIds.filter (fun tagId => tagId != tid) })).all
        (fun n : Note => !(n.tagIds.contains tid))) = true
    rw [List.all_eq_true]
    intro n hn
    obtain ⟨m, _, rfl⟩ := List.mem_map.mp hn
    simp [contains_filter_bne]

/-- C10: an `UPDATE_NOTE` whose id matches no note returns the input state
itself (silent no-op, no error, no timestamp bump). -/
theorem updateNote_unknown_id_noop (now : Nat) (fid : GeneratedId)
    (s : AppState) (p : UpdateNotePayload)
    (h : s.notes.all (fun n => n.id != p.id) = true) :
    appReducer now fid s (.updateNote p) = s := by
  have hf : s.notes.find? (fun note => note.id == p.id) = none := by
    rw [List.find?_eq_none]
    intro n hn
    have hne := (List.all_eq_true.mp h) n hn
    simp at hne ⊢
    exact hne
  simp only [appReducer, hf]

/-- Witness for C10 at a concrete state. -/
theorem updateNote_unknown_id_noop_witness :
    w10state.notes.all (fun n => n.id != w10payload.id) = true ∧
    appReducer 9 "f" w10state (.updateNote w10payload) = w10state :=
  ⟨by decide, updateNote_unknown_id_noop 9 "f" w10state w10payload (by decide)⟩

/-- C5: an `UPDATE_NOTE` whose payload carries only values identical to the
target note's current field values returns the input state unchanged (the
very same state value, hence the same notes collection and no `updatedAt`
bump). -/
theorem updateNote_identical_noop (now : Nat) (fid : GeneratedId)
    (s : AppState) (p : UpdateNotePayload) (target : Note)
    (hfind : s.notes.find? (fun note => note.id == p.id) = some target)
    (hagree : agreesB p target = true) :
    appReducer now fid s (.updateNote p) = s := by
  have hch : hasChanges p target = false := hasChanges_false_of_agrees p target hagree
  simp only [appReducer, hfind, hch]
  rfl

/-- Witness for C5 at a concrete state. -/
theorem updateNote_identical_noop_witness :
    w5state.notes.find? (fun note => note.id == w5payload.id) = some w5note ∧
    agreesB w5payload w5note = true ∧
    appReducer 9 "f" w5state (.updateNote w5payload) = w5state :=
  ⟨by decide, by decide,
    updateNote_identical_noop 9 "f" w5state w5payload w5note (by decide) (by decide)⟩

/-! ## Lemmas about the selector pipeline -/

theorem mem_orderedInsert {α : Type} (le : α → α → Bool) (a x : α) (l : List α) :
    x ∈ orderedInsert le a l ↔ x = a ∨ x ∈ l := by
  induction l with
  | nil => simp [orderedInsert]
  | cons b t ih =>
    simp only [orderedInsert]
    by_cases h : le a b = true
    · rw [if_pos h]
      simp [List.mem_cons]
    · rw [if_neg h]
      simp only [List.mem_cons, ih]
      tauto

theorem mem_stableSort {α : Type} (le : α → α → Bool) (x : α) (l : List α) :
    x ∈ stableSort le l ↔ x ∈ l := by
  induction l with
  | nil => simp [stableSort]
  | cons b t ih =>
    simp [stableSort, mem_orderedInsert, ih, List.mem_cons]

theorem mem_pinPartition (filters : FilterState) (x : Note) (l : List Note) :
    x ∈ pinPartition filters l ↔ x ∈ l := by
  cases hsp : filters.showPinned
  · simp [pinPartition, hsp]
  · simp only [pinPartition, hsp, if_true, List.mem_append, List.mem_filter]
    constructor
    · rintro (⟨h, _⟩ | ⟨h, _⟩) <;> exact h
    · intro h
      cases hp : x.pinned
      · right; exact ⟨h, by simp [hp]⟩
      · left; exact ⟨h, by simp [hp]⟩

theorem pairwise_orderedInsert {α : Type} (le : α → α → Bool)
    (htot : ∀ a b, le a b = false → le b a = true)
    (htrans : ∀ a b c, le a b = true → le b c = true → le a c = true)
    (a : α) (l : List α) (hl : l.Pairwise (fun x y => le x y = true)) :
    (orderedInsert le a l).Pairwise (fun x y => le x y = true) := by
  induction l with
  | nil => simp [orderedInsert]
  | cons b t ih =>
    simp only [orderedInsert]
    obtain ⟨hb, ht⟩ := List.pairwise_cons.mp hl
    by_cases h : le a b = true
    · rw [if_pos h]
      refine List.pairwise_cons.mpr ⟨?_, hl⟩
      intro x hx
      rcases List.mem_cons.mp hx with rfl | hx'
      · exact h
      · exact htrans a b x h (hb x hx')
    · rw [if_neg h]
      refine List.pairwise_cons.mpr ⟨?_, ih ht⟩
      intro x hx
      rcases (mem_orderedInsert le a x t).mp hx with heq | hx'
      · have hba := htot a b (by simpa using h)
        rw [heq]
        exact hba
      · exact hb x hx'

theorem pairwise_stableSort {α : Type} (le : α → α → Bool)
    (htot : ∀ a b, le a b = false → le b a = true)
    (htrans : ∀ a b c, le a b = true → le b c = true → le a c = true)
    (l : List α) :
    (stableSort le l).Pairwise (fun x y => le x y = true) := by
  induction l with
  | nil => simp [stableSort]
  | cons b t ih => exact pairwise_orderedInsert le htot htrans b _ ih

theorem listLtB_irrefl (l : List Char) : listLtB l l = false := by
  induction l with
  | nil => rfl
  | cons a t ih => simp [listLtB, ih]

theorem listLtB_trans (a b c : List Char) (h1 : listLtB a b = true)
    (h2 : listLtB b c = true) : listLtB a c = true := by
  induction a generalizing b c with
  | nil =>
    cases b with
    | nil => simp [listLtB] at h1
    | cons y ys =>
      cases c with
      | nil => simp [listLtB] at h2
      | cons z zs => simp [listLtB]
  | cons x xs ih =>
    cases b with
    | nil => simp [listLtB] at h1
    | cons y ys =>
      cases c with
      | nil => simp [listLtB] at h2
      | cons z zs =>
        simp only [listLtB] at h1 h2 ⊢
        by_cases hxy : (x == y) = true
        · have hxy' : x = y := eq_of_beq hxy
          subst hxy'
          rw [if_pos hxy] at h1
          by_cases hyz : (x == z) = true
          · have hyz' : x = z := eq_of_beq hyz
            subst hyz'
            rw [if_pos hyz] at h2
            rw [if_pos hyz]
            exact ih ys zs h1 h2
          · rw [if_neg hyz] at h2
            rw [if_neg hyz]
            exact h2
        · rw [if_neg hxy] at h1
          have hlt1 : x < y := of_decide_eq_true h1
          by_cases hyz : (y == z) = true
          · have hyz' : y = z := eq_of_beq hyz
            subst hyz'
            have hxz : (x == y) = false := by simpa using hxy
            rw [if_neg (by simp [hxz])]
            exact h1
          · rw [if_neg hyz] at h2
            have hlt2 : y < z := of_decide_eq_true h2
            have hlt : x < z := lt_trans hlt1 hlt2
            have hne : (x == z) = false := by
              simpa using ne_of_lt hlt
            rw [if_neg (by simp [hne])]
            exact decide_eq_true hlt

theorem listLtB_connex (a b : List Char) (h1 : listLtB a b = false)
    (h2 : listLtB b a = false) : a = b := by
  induction a generalizing b with
  | nil =>
    cases b with
    | nil => rfl
    | cons y ys => simp [listLtB] at h1
  | cons x xs ih =>
    cases b with
    | nil => simp [listLtB] at h2
    | cons y ys =>
      simp only [listLtB] at h1 h2
      by_cases hxy : (x == y) = true
      · have hxy' : x = y := eq_of_beq hxy
        subst hxy'
        rw [if_pos hxy] at h1
        rw [if_pos (by simp)] at h2
        rw [ih ys h1 h2]
      · rw [if_neg hxy] at h1
        have hyx : (y == x) = false := by
          have : x ≠ y := by simpa using hxy
          simpa using this.symm
        rw [if_neg (by simp [hyx])] at h2
        have hn1 : ¬ x < y := of_decide_eq_false h1
        have hn2 : ¬ y < x := of_decide_eq_false h2
        have : x = y := le_antisymm (not_lt.mp hn2) (not_lt.mp hn1)
        exact absurd this (by simpa using hxy)

theorem strLtB_trans (a b c : String) (h1 : strLtB a b = true)
    (h2 : strLtB b c = true) : strLtB a c = true :=
  listLtB_trans a.toList b.toList c.toList h1 h2

theorem strLtB_connex (a b : String) (h1 : strLtB a b = false)
    (h2 : strLtB b a = false) : a.toList = b.toList :=
  listLtB_connex a.toList b.toList h1 h2

theorem strLtB_irrefl (s : String) : strLtB s s = false :=
  listLtB_irrefl s.toList

/-- Under `sortBy = title`, `sortDirection = asc`, the comparator orders by
lexicographic titles. -/
theorem noteLe_title_asc (filters : FilterState) (hby : filters.sortBy = .title)
    (hdir : filters.sortDirection = .asc) (a b : Note) :
    noteLe filters a b =
      (strLtB a.title b.title || !(strLtB b.title a.title)) := by
  simp only [noteLe, noteCmp, hby, hdir, localeCompare]
  by_cases h1 : strLtB a.title b.title = true
  · simp [h1]
  · simp only [Bool.not_eq_true] at h1
    by_cases h2 : strLtB b.title a.title = true
    · simp [h1, h2]
    · simp only [Bool.not_eq_true] at h2
      simp [h1, h2]

theorem titleLe_total (a b : Note)
    (h : (strLtB a.title b.title || !(strLtB b.title a.title)) = false) :
    (strLtB b.title a.title || !(strLtB a.title b.title)) = true := by
  simp only [Bool.or_eq_false_iff] at h
  simp only [Bool.or_eq_true, Bool.not_eq_true']
  exact Or.inl (by simpa using h.2)

theorem titleLe_trans (a b c : Note)
    (h1 : (strLtB a.title b.title || !(strLtB b.title a.title)) = true)
    (h2 : (strLtB b.title c.title || !(strLtB c.title b.title)) = true) :
    (strLtB a.title c.title || !(strLtB c.title a.title)) = true := by
  by_cases hac : strLtB a.title c.title = true
  · simp [hac]
  · simp only [Bool.or_eq_true, Bool.not_eq_true'] at h1 h2 ⊢
    right
    cases hca : strLtB c.title a.title
    · rfl
    · exfalso
      rcases h1 with h1 | h1 <;> rcases h2 with h2 | h2
      · have h3 := strLtB_trans _ _ _ h1 h2
        have h4 := strLtB_trans _ _ _ h3 hca
        rw [strLtB_irrefl] at h4
        exact Bool.false_ne_true h4
      · have h3 := strLtB_trans _ _ _ hca h1
        rw [h2] at h3
        exact Bool.false_ne_true h3
      · have h3 := strLtB_trans _ _ _ h2 hca
        rw [h1] at h3
        exact Bool.false_ne_true h3
      · cases hbc : strLtB b.title c.title
        · have hbceq := strLtB_connex _ _ hbc h2
          have h3 : strLtB b.title a.title = true := by
            unfold strLtB
            rw [hbceq]
            exact hca
          rw [h1] at h3
          exact Bool.false_ne_true h3
        · have h3 := strLtB_trans _ _ _ hbc hca
          rw [h1] at h3
          exact Bool.false_ne_true h3

/-- C7: with a non-empty tag filter (no search, no untagged filter), the
pipeline keeps exactly the surviving (non-deleted, non-archived unless
shown) notes that have at least one filter tag under `ANY`, and every
filter tag under `ALL`; concretely, for A(tags x), B(tags y), C(tags x,y),
`ANY` with filter x yields A and C, and `ALL` with filter x,y yields only C. -/
theorem getFilteredNotes_tag_modes :
    (∀ (notes : List Note) (preferences : Preferences) (filters : FilterState) (n : Note),
      filters.tags ≠ [] → filters.search = "" → filters.showUntagged = false →
      (n ∈ getFilteredNotes notes preferences filters ↔
        n ∈ notes ∧ isDeletedB n = false ∧
        (filters.showArchived = true ∨ n.archived = false) ∧
        (match preferences.tagFilterMode with
         | .anyMode => ∃ t ∈ n.tagIds, t ∈ filters.tags
         | .allMode => ∀ t ∈ filters.tags, t ∈ n.tagIds))) ∧
    getFilteredNotes [nA, nB, nC] defaultPreferences fAny = [nA, nC] ∧
    getFilteredNotes [nA, nB, nC] pAll fAll = [nC] := by
  refine ⟨?_, by decide, by decide⟩
  intro notes preferences filters n htags hsearch huntag
  have hlen : 0 < filters.tags.length := List.length_pos.mpr htags
  unfold getFilteredNotes preSorted
  rw [mem_pinPartition, mem_stableSort]
  simp only [filterSearch, hsearch, bne_self_eq_false, Bool.false_eq_true, if_false,
    filterUntagged, huntag, filterTags, if_pos hlen]
  rw [List.mem_filter]
  cases harch : filters.showArchived with
  | true =>
    simp only [filterArchived, harch, if_true, filterDeleted, List.mem_filter,
      Bool.not_eq_true']
    cases hm : preferences.tagFilterMode with
    | anyMode =>
      simp only [tagMatches, List.any_eq_true, List.elem_iff]
      constructor
      · rintro ⟨⟨hmem, hdel⟩, htag⟩
        exact ⟨hmem, hdel, Or.inl trivial, htag⟩
      · rintro ⟨hmem, hdel, _, htag⟩
        exact ⟨⟨hmem, hdel⟩, htag⟩
    | allMode =>
      simp only [tagMatches, List.all_eq_true, List.elem_iff]
      constructor
      · rintro ⟨⟨hmem, hdel⟩, htag⟩
        exact ⟨hmem, hdel, Or.inl trivial, htag⟩
      · rintro ⟨hmem, hdel, _, htag⟩
        exact ⟨⟨hmem, hdel⟩, htag⟩
  | false =>
    simp only [filterArchived, harch, Bool.false_eq_true, if_false, filterDeleted,
      List.mem_filter, Bool.not_eq_true']
    cases hm : preferences.tagFilterMode with
    | anyMode =>
      simp only [tagMatches, List.any_eq_true, List.elem_iff]
      constructor
      · rintro ⟨⟨⟨hmem, hdel⟩, harch2⟩, htag⟩
        exact ⟨hmem, hdel, Or.inr harch2, htag⟩
      · rintro ⟨hmem, hdel, harch2, htag⟩
        rcases harch2 with h | h
        · exact h.elim
        · exact ⟨⟨⟨hmem, hdel⟩, h⟩, htag⟩
    | allMode =>
      simp only [tagMatches, List.all_eq_true, List.elem_iff]
      constructor
      · rintro ⟨⟨⟨hmem, hdel⟩, harch2⟩, htag⟩
        exact ⟨hmem, hdel, Or.inr harch2, htag⟩
      · rintro ⟨hmem, hdel, harch2, htag⟩
        rcases harch2 with h | h
        · exact h.elim
        · exact ⟨⟨⟨hmem, hdel⟩, h⟩, htag⟩

/-- Witness for C7 at a concrete filter state and note. -/
theorem getFilteredNotes_tag_modes_witness :
    fAny.tags ≠ [] ∧ fAny.search = "" ∧ fAny.showUntagged = false ∧
    (nA ∈ getFilteredNotes [nA, nB, nC] defaultPreferences fAny ↔
      nA ∈ [nA, nB, nC] ∧ isDeletedB nA = false ∧
      (fAny.showArchived = true ∨ nA.archived = false) ∧
      (match defaultPreferences.tagFilterMode with
       | .anyMode => ∃ t ∈ nA.tagIds, t ∈ fAny.tags
       | .allMode => ∀ t ∈ fAny.tags, t ∈ nA.tagIds)) :=
  ⟨by decide, by decide, by decide,
    getFilteredNotes_tag_modes.1 [nA, nB, nC] defaultPreferences fAny nA
      (by decide) (by decide) (by decide)⟩

/-- C8: sorting by ascending title is lexicographic on titles (concretely,
titles b, a, c come out a, b, c), and whenever `showPinned` is set the
result is the pinned notes followed by the unpinned notes, each sublist in
the prior sorted order, whatever the sort field. -/
theorem getFilteredNotes_sort_pinned :
    (∀ (notes : List Note) (preferences : Preferences) (filters : FilterState),
      filters.showPinned = true →
      getFilteredNotes notes preferences filters =
        (preSorted notes preferences filters).filter (fun note => note.pinned) ++
        (preSorted notes preferences filters).filter (fun note => !note.pinned)) ∧
    (∀ (notes : List Note) (preferences : Preferences) (filters : FilterState),
      filters.sortBy = .title → filters.sortDirection = .asc →
      (preSorted notes preferences filters).Pairwise
        (fun a b => localeCompare a.title b.title ≤ 0)) ∧
    (getFilteredNotes [t1, t2, t3] defaultPreferences fTitle).map Note.title
      = ["a", "b", "c"] := by
  refine ⟨?_, ?_, by decide⟩
  · intro notes preferences filters h
    unfold getFilteredNotes pinPartition
    rw [h, if_pos rfl]
  · intro notes preferences filters hby hdir
    have htot : ∀ a b, noteLe filters a b = false → noteLe filters b a = true := by
      intro a b h
      rw [noteLe_title_asc filters hby hdir] at h ⊢
      exact titleLe_total a b h
    have htrans : ∀ a b c, noteLe filters a b = true → noteLe filters b c = true →
        noteLe filters a c = true := by
      intro a b c h1 h2
      rw [noteLe_title_asc filters hby hdir] at h1 h2 ⊢
      exact titleLe_trans a b c h1 h2
    have hp := pairwise_stableSort (noteLe filters) htot htrans
      (filterSearch filters
        (filterUntagged filters
          (filterTags preferences filters
            (filterArchived filters (filterDeleted notes)))))
    unfold preSorted
    refine hp.imp ?_
    intro a b h
    have hcmp := of_decide_eq_true h
    simpa [noteCmp, hby, hdir] using hcmp

/-- Witness for C8 at a concrete filter state. -/
theorem getFilteredNotes_sort_pinned_witness :
    defaultFilters.showPinned = true ∧
    getFilteredNotes [t1, t2, t3] defaultPreferences defaultFilters =
      (preSorted [t1, t2, t3] defaultPreferences defaultFilters).filter
        (fun note => note.pinned) ++
      (preSorted [t1, t2, t3] defaultPreferences defaultFilters).filter
        (fun note => !note.pinned) ∧
    fTitle.sortBy = .title ∧ fTitle.sortDirection = .asc ∧
    (preSorted [t1, t2, t3] defaultPreferences fTitle).Pairwise
      (fun a b => localeCompare a.title b.title ≤ 0) :=
  ⟨by decide,
    getFilteredNotes_sort_pinned.1 [t1, t2, t3] defaultPreferences defaultFilters
      (by decide),
    by decide, by decide,
    getFilteredNotes_sort_pinned.2.1 [t1, t2, t3] defaultPreferences fTitle
      (by decide) (by decide)⟩

/-! ## Lemmas about the store, and the storage-layer claims -/

theorem storeLookup_put_self (st : Store) (k : String) (v : StoredVal) :
    storeLookup (storePut st k v) k = some v := by
  induction st with
  | nil => simp [storePut, storeLookup, List.find?]
  | cons e rest ih =>
    simp only [storePut]
    by_cases h : (e.1 == k) = true
    · rw [if_pos h]
      simp [storeLookup, List.find?]
    · rw [if_neg h]
      simp only [storeLookup, List.find?] at ih ⊢
      simp only [Bool.not_eq_true] at h
      rw [h]
      exact ih

theorem storeLookup_put_other (st : Store) (k k2 : String) (v : StoredVal)
    (h : (k2 == k) = false) :
    storeLookup (storePut st k v) k2 = storeLookup st k2 := by
  have hk : (k == k2) = false := by
    rw [beq_eq_false_iff_ne] at h ⊢
    exact fun he => h he.symm
  induction st with
  | nil => simp [storePut, storeLookup, List.find?, hk]
  | cons e rest ih =>
    simp only [storePut]
    by_cases he : (e.1 == k) = true
    · rw [if_pos he]
      have hek : e.1 = k := eq_of_beq he
      simp only [storeLookup, List.find?, hk, hek]
    · rw [if_neg he]
      simp only [storeLookup, List.find?] at ih ⊢
      cases hf : (e.1 == k2)
      · simp only [hf]
        exact ih
      · simp only [hf]

/-- C3 (amended): any imported payload that fails parsing, fails
`isValidAppData`, or whose version is not 1 (e.g. version 2) is rejected
with a `parse_error` before any write, leaving every stored key untouched;
a storage failure during the write phase, however, is not atomic (see the
counterexample). -/
theorem importData_rejected_before_write (parsed : Option JValue) (now : Nat)
    (q : String → Bool) (st : Store)
    (h : parsed = none ∨ ∃ v, parsed = some v ∧
      (isValidAppData v = false ∨ versionIs1 v = false)) :
    importData parsed now q st = (st, .error .parse_error) := by
  rcases h with h | ⟨v, rfl, h⟩
  · rw [h]; rfl
  · unfold importData
    cases hv : isValidAppData v
    · simp only [hv, Bool.false_eq_true, if_false]
    · rcases h with h | h
      · rw [hv] at h; exact absurd h (by simp)
      · simp only [hv, eq_self_iff_true, if_true]
        unfold versionIs1 at h
        rcases hfield : jfield v "version" with _ | w
        · rfl
        · cases w with
          | jnum k =>
            rw [hfield] at h
            simp only at h
            simp only [h, Bool.false_eq_true, if_false]
          | jnull => rfl
          | jbool b => rfl
          | jstr s => rfl
          | jarr xs => rfl
          | jobj fs => rfl

/-- C3 counterexample: a valid version-1 payload imported into a store
whose adapter rejects the tags-key write: `importData` reports a
`parse_error`, yet the notes key has already been overwritten — the
failure is not an atomic no-op. -/
theorem importData_partial_apply_cex :
    (importData (some v1payload) 0 qTags []).2 = .error .parse_error ∧
    (importData (some v1payload) 0 qTags []).1
      = [("app.notes.v1", .jval (.jarr []))] ∧
    ([("app.notes.v1", StoredVal.jval (.jarr []))] : Store) ≠ [] := by
  refine ⟨rfl, rfl, ?_⟩
  exact List.cons_ne_nil _ _

/-- Witness for C3 (amended) on a concrete version-2 payload. -/
theorem importData_rejected_before_write_witness :
    ((some v2payload : Option JValue) = none ∨ ∃ v, (some v2payload : Option JValue) = some v ∧
      (isValidAppData v = false ∨ versionIs1 v = false)) ∧
    importData (some v2payload) 0 neverFail [("k", .junk 3)]
      = ([("k", .junk 3)], .error .parse_error) :=
  ⟨Or.inr ⟨v2payload, rfl, Or.inr (by decide)⟩,
   importData_rejected_before_write (some v2payload) 0 neverFail [("k", .junk 3)]
     (Or.inr ⟨v2payload, rfl, Or.inr (by decide)⟩)⟩

/-- C4 (code evidence): the primary notes key holds corrupted JSON and a
valid snapshot written in `createBackup`'s own format is present, yet
loading returns the caller default and leaves the store unchanged, because
`attemptDataRecovery` scans for keys starting with `notes-backup-data-`
while `createBackup` writes `notes-backup-notes-app-data-<ts>`. -/
theorem loadFromLocalStorage_misses_backup :
    storeLookup st4 "notes-backup-notes-app-data-100" = some (.jval backupVal) ∧
    jfield backupVal "data" = some (.jarr [goodNoteJ]) ∧
    validateData (.jarr [goodNoteJ]) NOTES_KEY = true ∧
    loadFromLocalStorage NOTES_KEY (.jarr []) 200 neverFail st4 = (st4, .jarr []) :=
  ⟨rfl, rfl, by decide, rfl⟩

/-- C6: when the three storage keys hold valid collections,
`importData(exportData())` succeeds and leaves the very same notes, tags
and preferences lists (order preserved) under the storage keys. -/
theorem exportImport_roundTrip (st : Store) (ns ts : List JValue) (p : JValue) (now : Nat)
    (hN : storeLookup st NOTES_V1 = some (.jval (.jarr ns)))
    (hT : storeLookup st TAGS_V1 = some (.jval (.jarr ts)))
    (hP : storeLookup st PREFS_V1 = some (.jval p))
    (hvN : ns.all isValidNote = true)
    (hvT : ts.all isValidTag = true)
    (hvP : isValidPreferences p = true) :
    ∃ env st2,
      exportData st = .ok env ∧
      importData (some env) now neverFail st = (st2, .ok true) ∧
      storeLookup st2 NOTES_V1 = some (.jval (.jarr ns)) ∧
      storeLookup st2 TAGS_V1 = some (.jval (.jarr ts)) ∧
      storeLookup st2 PREFS_V1 = some (.jval p) := by
  have hval : isValidAppData
      (.jobj [("version", .jnum 1), ("notes", .jarr ns), ("tags", .jarr ts),
              ("preferences", p)]) = true := by
    unfold isValidAppData
    simp [jfield, List.find?, jsTruthy, isObjType, hvN, hvT, hvP]
  refine ⟨.jobj [("version", .jnum 1), ("notes", .jarr ns), ("tags", .jarr ts),
                 ("preferences", p)],
    storePut (storePut (storePut (storePut st NOTES_V1 (.jval (.jarr ns)))
      TAGS_V1 (.jval (.jarr ts))) PREFS_V1 (.jval p)) META_V1
      (.jval (.jobj [("lastBackupAt", .jstr (toString now))])), ?_, ?_, ?_, ?_, ?_⟩
  · unfold exportData getItemSt
    rw [hN, hT, hP]
    simp only [Option.getD_some]
    rw [if_pos hval]
  · unfold importData
    simp only [hval, eq_self_iff_true, if_true]
    have hver : jfield (JValue.jobj [("version", .jnum 1), ("notes", .jarr ns),
        ("tags", .jarr ts), ("preferences", p)]) "version" = some (.jnum 1) := rfl
    rw [hver]
    simp only [setItemSt, neverFail, Bool.false_eq_true, if_false]
    rfl
  · rw [storeLookup_put_other _ _ _ _ (by decide),
        storeLookup_put_other _ _ _ _ (by decide),
        storeLookup_put_other _ _ _ _ (by decide)]
    exact storeLookup_put_self _ _ _
  · rw [storeLookup_put_other _ _ _ _ (by decide),
        storeLookup_put_other _ _ _ _ (by decide)]
    exact storeLookup_put_self _ _ _
  · rw [storeLookup_put_other _ _ _ _ (by decide)]
    exact storeLookup_put_self _ _ _

/-- Witness for C6 at a concrete store. -/
theorem exportImport_roundTrip_witness :
    storeLookup st6 NOTES_V1 = some (.jval (.jarr [noteJ1])) ∧
    storeLookup st6 TAGS_V1 = some (.jval (.jarr [tagJ1])) ∧
    storeLookup st6 PREFS_V1 = some (.jval prefsJ) ∧
    ([noteJ1].all isValidNote = true) ∧
    ([tagJ1].all isValidTag = true) ∧
    (isValidPreferences prefsJ = true) ∧
    (∃ env st2,
      exportData st6 = .ok env ∧
      importData (some env) 5 neverFail st6 = (st2, .ok true) ∧
      storeLookup st2 NOTES_V1 = some (.jval (.jarr [noteJ1])) ∧
      storeLookup st2 TAGS_V1 = some (.jval (.jarr [tagJ1])) ∧
      storeLookup st2 PREFS_V1 = some (.jval prefsJ)) :=
  ⟨rfl, rfl, rfl, by decide, by decide, by decide,
    exportImport_roundTrip st6 [noteJ1] [tagJ1] prefsJ 5 rfl rfl rfl
      (by decide) (by decide) (by decide)⟩

/-- C9 counterexample: the pending debounced save fires with a value whose
serialization equals the value already persisted under the key, and the
save still writes (backup, primary and metadata keys are all written) —
the claimed equality short-circuit does not exist on this path. -/
theorem debouncedSave_equal_value_writes_cex :
    storeLookup st9 NOTES_KEY = some (.jval (.jarr [])) ∧
    stringify (JValue.jarr []) = stringify (JValue.jarr []) ∧
    (fireDebounceTimer (debouncedSave NOTES_KEY (.jarr []) none) 7 neverFail st9).written
      = ["notes-backup-notes-app-data-7", "notes-app-data", "notes-metadata"] ∧
    (["notes-backup-notes-app-data-7", "notes-app-data", "notes-metadata"]
      : List String) ≠ [] := by
  refine ⟨rfl, rfl, rfl, ?_⟩
  exact List.cons_ne_nil _ _

/-- C9 (amended): the serialized-equality short-circuit lives only in the
`useLocalStorage` hook, whose `setValue` with `skipEqual` returns the
previous state and schedules no save when serializations agree; the
AppContext `debouncedSave`/`saveToLocalStorage` path writes the key
whenever its timer fires and the adapter accepts the writes, regardless of
value equality. -/
theorem equality_shortcircuit_located :
    (∀ (α : Type) (serialize : α → String) (prevState newValue : α),
      serialize prevState = serialize newValue →
      setValueStep true serialize prevState newValue = (prevState, false)) ∧
    (∀ (key : String) (data : JValue) (pending : Option (String × JValue))
       (now : Nat) (st : Store),
      key ∈ (fireDebounceTimer (debouncedSave key data pending) now neverFail st).written) := by
  constructor
  · intro α serialize prevState newValue h
    unfold setValueStep
    rw [if_pos (by simp [h])]
  · intro key data pending now st
    unfold fireDebounceTimer debouncedSave saveToLocalStorage
    simp only [rawSet, neverFail, Bool.false_eq_true, if_false]
    simp only [List.mem_append, List.mem_cons]
    right
    left
    trivial

/-- Witness for C9 (amended) at concrete values. -/
theorem equality_shortcircuit_located_witness :
    ((fun (n : Nat) => toString n) 3 = (fun (n : Nat) => toString n) 3) ∧
    setValueStep true (fun (n : Nat) => toString n) 3 3 = (3, false) ∧
    NOTES_KEY ∈ (fireDebounceTimer (debouncedSave NOTES_KEY .jnull none) 5
      neverFail []).written :=
  ⟨rfl, equality_shortcircuit_located.1 Nat (fun n => toString n) 3 3 rfl,
    equality_shortcircuit_located.2 NOTES_KEY .jnull none 5 []⟩

end NotesApp
